import Mathlib

/-!
Verification model of the invest-backend property service (`src/server.js`),
volatile ("memory") mode.  The server keeps an in-process list `memory` of
records, newest first.  We embed the JavaScript value coercions that the
handlers rely on (`Number`, `String`, `parseInt`, `??`, `||`, `>=`/`<=` with
`NaN`) and the four route handlers as pure Lean functions on an explicit
store, then prove the specification claims about them.

Conventions of the embedding:
* JS numbers are modelled as `JSNum` = `NaN` or a rational.  (The claims never
  exercise `Infinity`, `-0` or floating-point rounding; numeric-string parsing
  is modelled for decimal literals, with hexadecimal/exponent/`Infinity` forms
  conservatively mapped to `NaN`.)
* JSON body values are modelled as `JSVal` (`undefined`, `null`, booleans,
  numbers, strings); a field absent from the body destructures to `undefined`,
  exactly as in the handler.
* A query-string parameter is an `Option String` (`none` = absent).  The four
  range bounds are pre-abstracted to `Option JSNum`: `none` when the raw
  string parameter is missing or empty (falsy, so the handler skips the
  bound), `some v` when it is a non-empty string with `Number(param) = v`
  (`v = NaN` when the string is not numeric).
* The `q` parameter is modelled as `Option (String → Bool)`: the `test`
  function of the compiled case-insensitive regular expression, applied after
  `ToString` coercion of the record's `location`, mirroring
  `rx.test(x.location)`.  `none` = parameter missing or empty.
* `Array.prototype.sort` is stable (ES2019) and, for a consistent comparator,
  returns the unique stable order; we model it by stable insertion sort on the
  relation `comparator a b ≤ 0`, with the ECMAScript `SortCompare` rule that a
  `NaN` comparator result counts as `+0`.  (When `sortBy = 'location'` and a
  record's `location` is not a string, the real code throws a `TypeError`;
  the model totalises that corner via `ToString` and the location-sorting
  theorems assume string locations, which every created record has.)
-/

/-- A finite JS numeric value, kept as an unreduced fraction
(numerator, positive denominator).  JS only ever compares or subtracts these
values in this program, so no normalisation is needed; comparisons are by
cross-multiplication, which is exact. -/
structure JSRat where
  num : Int
  den : {d : Nat // 0 < d}
deriving DecidableEq

/-- The fraction `n / 1`. -/
def jsInt (n : Int) : JSRat :=
  ⟨n, ⟨1, Nat.one_pos⟩⟩

/-- Numeric order on fractions, by cross-multiplication. -/
def JSRat.le (a b : JSRat) : Prop :=
  a.num * (b.den.val : Int) ≤ b.num * (a.den.val : Int)

instance : DecidableRel JSRat.le := fun a b => by
  unfold JSRat.le; infer_instance

/-- Negation of a fraction. -/
def JSRat.neg (a : JSRat) : JSRat :=
  ⟨-a.num, a.den⟩

/-- Exact subtraction of fractions. -/
def JSRat.sub (a b : JSRat) : JSRat :=
  ⟨a.num * (b.den.val : Int) - b.num * (a.den.val : Int),
   ⟨a.den.val * b.den.val, Nat.mul_pos a.den.property b.den.property⟩⟩

/-- A JavaScript number: `NaN` or a (finite) numeric value. -/
inductive JSNum where
  | nan : JSNum
  | num : JSRat → JSNum
deriving DecidableEq

/-- A JSON/JavaScript value as far as the handlers distinguish them. -/
inductive JSVal where
  | undef : JSVal
  | null : JSVal
  | bool : Bool → JSVal
  | num : JSNum → JSVal
  | str : String → JSVal
deriving DecidableEq

/-- Digit-string accumulation, used to give `parseInt`/`Number` their value. -/
def digitsToNat (ds : List Char) : Nat :=
  ds.foldl (fun acc c => 10 * acc + (c.toNat - 48)) 0

/-- JS `Number(s)` on a string, for decimal literals: trimmed, empty → `0`,
optional sign, `digits`, `digits.digits`, `digits.` or `.digits`; anything
else → `NaN`.  (Hexadecimal, exponent and `Infinity` forms are conservatively
mapped to `NaN`; no claim depends on them.) -/
def numberOfChars (cs : List Char) : JSNum :=
  let ip := cs.takeWhile (fun c => c.isDigit)
  let rest := cs.drop ip.length
  match rest with
  | [] => if ip.isEmpty then .nan else .num (jsInt (digitsToNat ip))
  | c :: frac =>
    if c = (".").front then
      let fp := frac.takeWhile (fun c => c.isDigit)
      if (frac.drop fp.length).isEmpty then
        if ip.isEmpty ∧ fp.isEmpty then .nan
        else .num ⟨(digitsToNat ip * 10 ^ fp.length + digitsToNat fp : Nat),
                   ⟨10 ^ fp.length, pow_pos (by decide) fp.length⟩⟩
      else .nan
    else .nan

/-- Strip leading and trailing whitespace (JS string trimming). -/
def trimChars (cs : List Char) : List Char :=
  ((cs.dropWhile (fun c => c.isWhitespace)).reverse.dropWhile (fun c => c.isWhitespace)).reverse

/-- JS `Number(s)` on a string: handles trimming and the optional sign. -/
def numberOfString (s : String) : JSNum :=
  match trimChars s.data with
  | [] => .num (jsInt 0)
  | c :: cs =>
    if c = ("-").front then
      match numberOfChars cs with
      | .nan => .nan
      | .num q => .num q.neg
    else if c = ("+").front then numberOfChars cs
    else numberOfChars (c :: cs)

/-- JS `ToNumber` on a value (`Number(v)`). -/
def jsvalToNumber : JSVal → JSNum
  | .undef => .nan
  | .null => .num (jsInt 0)
  | .bool b => .num (jsInt (if b then 1 else 0))
  | .num v => v
  | .str s => numberOfString s

/-- JS number-to-string (used only through `String(v)`); exact for `NaN` and
integers, which are the only numeric values the handlers ever stringify in the
claims (JS shortest-round-trip formatting of non-integers is not reproduced). -/
def jsNumToString : JSNum → String
  | .nan => "NaN"
  | .num q => if q.den.val = 1 then q.num.repr else q.num.repr ++ "/" ++ (Nat.repr q.den.val)

/-- JS `ToString` on a value (`String(v)`). -/
def jsvalToString : JSVal → String
  | .undef => "undefined"
  | .null => "null"
  | .bool b => if b then "true" else "false"
  | .num v => jsNumToString v
  | .str s => s

/-- JS `a >= b` for a numeric right operand: `false` whenever either side is
`NaN`, numeric comparison otherwise. -/
def jsGE : JSNum → JSNum → Bool
  | .num x, .num y => decide (JSRat.le y x)
  | _, _ => false

/-- JS `a <= b` for a numeric right operand. -/
def jsLE : JSNum → JSNum → Bool
  | .num x, .num y => decide (JSRat.le x y)
  | _, _ => false

/-- JS subtraction: `NaN` propagates. -/
def jsSub : JSNum → JSNum → JSNum
  | .num x, .num y => .num (x.sub y)
  | _, _ => .nan

/-- JS `parseInt(s, 10)`: skip leading whitespace, optional sign, longest
digit prefix; `none` (`NaN`) when no digit is found. -/
def parseIntJS (s : String) : Option Int :=
  let cs := s.data.dropWhile (fun c => c.isWhitespace)
  let signed : Int × List Char :=
    match cs with
    | c :: t =>
      if c = ("-").front then (-1, t)
      else if c = ("+").front then (1, t)
      else (1, cs)
    | [] => (1, [])
  let ds := signed.2.takeWhile (fun c => c.isDigit)
  if ds.isEmpty then none else some (signed.1 * (digitsToNat ds : Int))

/-- JS `x || d` on the result of `parseInt`: `NaN` and `0` are falsy and fall
back to the default. -/
def jsOrDefault (o : Option Int) (d : Int) : Int :=
  match o with
  | none => d
  | some v => if v = 0 then d else v

/-- A stored property record (volatile mode).  `_id` and `createdAt` are
always strings (`String(Date.now())`, `new Date().toISOString()`); the three
payload fields hold whatever JS value the last write put there. -/
structure Record where
  _id : String
  price : JSVal
  location : JSVal
  rentalYield : JSVal
  createdAt : String
deriving DecidableEq

/-- The request body as destructured by the handlers:
`const { price, location, rentalYield } = req.body` (absent key → `undefined`). -/
structure ReqBody where
  price : JSVal
  location : JSVal
  rentalYield : JSVal
deriving DecidableEq

/-- The GET query parameters (see the conventions in the header comment). -/
structure QueryReq where
  q : Option (String → Bool)
  minPrice : Option JSNum
  maxPrice : Option JSNum
  minYield : Option JSNum
  maxYield : Option JSNum
  sortBy : Option String
  order : Option String
  page : Option String
  pageSize : Option String

/-- The JSON payload of a successful GET. -/
structure QueryResult where
  items : List Record
  total : Nat
  page : Int
  pageSize : Int
deriving DecidableEq

/-- `Math.max(parseInt(page, 10) || 1, 1)` with default string `'1'`. -/
def pageNum (req : QueryReq) : Int :=
  max (jsOrDefault (parseIntJS (req.page.getD ("1"))) 1) 1

/-- `Math.min(Math.max(parseInt(pageSize, 10) || 20, 1), 100)` with default `'20'`. -/
def sizeNum (req : QueryReq) : Int :=
  min (max (jsOrDefault (parseIntJS (req.pageSize.getD ("20"))) 20) 1) 100

/-- Filter step for `q`: `list.filter(x => rx.test(x.location))`. -/
def qFilter (req : QueryReq) (l : List Record) : List Record :=
  match req.q with
  | none => l
  | some f => l.filter (fun x => f (jsvalToString x.location))

/-- Filter step for the price bounds, mirroring the `filter.price` object:
built only when `minPrice || maxPrice` is truthy, each bound applied when its
parameter is truthy (even when `Number(param)` is `NaN`). -/
def priceFilter (req : QueryReq) (l : List Record) : List Record :=
  if req.minPrice.isSome ∨ req.maxPrice.isSome then
    let l1 := match req.minPrice with
      | some g => l.filter (fun x => jsGE (jsvalToNumber x.price) g)
      | none => l
    match req.maxPrice with
    | some m => l1.filter (fun x => jsLE (jsvalToNumber x.price) m)
    | none => l1
  else l

/-- Filter step for the rental-yield bounds (same shape as `priceFilter`). -/
def yieldFilter (req : QueryReq) (l : List Record) : List Record :=
  if req.minYield.isSome ∨ req.maxYield.isSome then
    let l1 := match req.minYield with
      | some g => l.filter (fun x => jsGE (jsvalToNumber x.rentalYield) g)
      | none => l
    match req.maxYield with
    | some m => l1.filter (fun x => jsLE (jsvalToNumber x.rentalYield) m)
    | none => l1
  else l

/-- The filtered snapshot, in store order: `[...memory]` then the three
filter blocks in source order. -/
def filteredList (req : QueryReq) (mem : List Record) : List Record :=
  yieldFilter req (priceFilter req (qFilter req mem))

/-- Dynamic property lookup `r[k]` for the own keys of a stored record
(prototype-inherited keys all coerce to a `NaN` comparator difference, like
absent keys coerce to `0 - 0`; no claim distinguishes them). -/
def getField (r : Record) (k : String) : Option JSVal :=
  if k = "_id" then some (.str r._id)
  else if k = "price" then some r.price
  else if k = "location" then some r.location
  else if k = "rentalYield" then some r.rentalYield
  else if k = "createdAt" then some (.str r.createdAt)
  else none

/-- `ToNumber(r[k] ?? 0)`, the operand of the comparator subtraction. -/
def fieldNum (r : Record) (k : String) : JSNum :=
  jsvalToNumber ((getField r k).getD (.num (.num (jsInt 0))))

/-- The effective sort key: `sortBy = 'createdAt'` destructuring default. -/
def sortKey (req : QueryReq) : String :=
  req.sortBy.getD ("createdAt")

/-- Whether the comparator runs un-negated: `order === 'asc'`. -/
def ascOrder (req : QueryReq) : Bool :=
  req.order.getD ("desc") = "asc"

/-- The sort comparator of the volatile GET, with the ECMAScript `SortCompare`
rule (`NaN` result counts as `+0`) already applied; `locCmp` is the ambient
`String.prototype.localeCompare` collation. -/
def sortCompare (locCmp : String → String → Int) (req : QueryReq) (a b : Record) : JSRat :=
  if sortKey req = "location" then
    let s : JSRat := jsInt (locCmp (jsvalToString a.location) (jsvalToString b.location))
    if ascOrder req then s else s.neg
  else
    let v : JSRat := match jsSub (fieldNum a (sortKey req)) (fieldNum b (sortKey req)) with
      | .nan => jsInt 0
      | .num q => q
    if ascOrder req then v else v.neg

/-- `list.sort(comparator)`: stable sort on `comparator a b ≤ 0`. -/
def sortStep (locCmp : String → String → Int) (req : QueryReq) (l : List Record) : List Record :=
  List.insertionSort (fun a b => (sortCompare locCmp req a b).le (jsInt 0)) l

/-- The volatile GET handler: filter, sort, `total`, then
`list.slice(start, start + sizeNum)` with `start = (pageNum - 1) * sizeNum`. -/
def volatileQuery (locCmp : String → String → Int) (req : QueryReq) (mem : List Record) :
    QueryResult :=
  let sorted := sortStep locCmp req (filteredList req mem)
  let start := ((pageNum req - 1) * sizeNum req).toNat
  { items := (sorted.drop start).take (sizeNum req).toNat
    total := sorted.length
    page := pageNum req
    pageSize := sizeNum req }

/-- Result of the volatile POST handler. -/
structure CreateResp where
  status : Nat
  record : Record
  memory : List Record
deriving DecidableEq

/-- The volatile POST handler.  `Number`, `String`, object literal and
`unshift` cannot throw on a JSON body, so the `catch` (400) branch is
unreachable and the status is always 201.  `nowMs` is `Date.now()`, `nowIso`
is `new Date().toISOString()`. -/
def createVolatile (b : ReqBody) (nowMs : Nat) (nowIso : String) (mem : List Record) :
    CreateResp :=
  let obj : Record :=
    { _id := Nat.repr nowMs
      price := .num (jsvalToNumber b.price)
      location := .str (jsvalToString b.location)
      rentalYield := .num (jsvalToNumber b.rentalYield)
      createdAt := nowIso }
  { status := 201, record := obj, memory := obj :: mem }

/-- The volatile PUT handler: find the first record with the given `_id`;
`none` means the 404 branch; otherwise overwrite the three payload fields with
the raw body values in place. -/
def updateVolatile (pid : String) (b : ReqBody) : List Record → Option Record × List Record
  | [] => (none, [])
  | r :: rest =>
    if r._id = pid then
      let r' : Record := { r with price := b.price, location := b.location,
                                  rentalYield := b.rentalYield }
      (some r', r' :: rest)
    else
      let res := updateVolatile pid b rest
      (res.1, r :: res.2)

/-- HTTP status of the PUT response. -/
def putStatus : Option Record → Nat
  | none => 404
  | some _ => 200

/-- The volatile DELETE handler: `splice` out the first record with the given
`_id`; the Boolean is `false` on the 404 branch. -/
def deleteVolatile (pid : String) : List Record → Bool × List Record
  | [] => (false, [])
  | r :: rest =>
    if r._id = pid then (true, rest)
    else
      let res := deleteVolatile pid rest
      (res.1, r :: res.2)

/-- A mutating request against the volatile store. -/
inductive Op where
  | create (b : ReqBody) (nowMs : Nat) (nowIso : String)
  | update (pid : String) (b : ReqBody)
  | del (pid : String)

/-- One step of the store's evolution. -/
def stepOp (mem : List Record) : Op → List Record
  | .create b t iso => (createVolatile b t iso mem).memory
  | .update pid b => (updateVolatile pid b mem).2
  | .del pid => (deleteVolatile pid mem).2

/-- Run a sequence of mutating requests. -/
def runOps : List Record → List Op → List Record
  | mem, [] => mem
  | mem, op :: ops => runOps (stepOp mem op) ops

/-- The ids of the live records. -/
def liveIds (mem : List Record) : List String :=
  mem.map (fun r => r._id)

/-- The `Date.now()` values consumed by the creates of an operation sequence. -/
def createTimes : List Op → List Nat
  | [] => []
  | .create _ t _ :: ops => t :: createTimes ops
  | .update _ _ :: ops => createTimes ops
  | .del _ :: ops => createTimes ops

/-! ### Order lemmas for the fraction type -/

theorem JSRat.le_total (a b : JSRat) : a.le b ∨ b.le a := by
  unfold JSRat.le
  exact Int.le_total _ _

theorem JSRat.le_trans {a b c : JSRat} (h1 : a.le b) (h2 : b.le c) : a.le c := by
  unfold JSRat.le at *
  have da : (0:Int) < (a.den.val : Int) := by exact_mod_cast a.den.property
  have db : (0:Int) < (b.den.val : Int) := by exact_mod_cast b.den.property
  have dc : (0:Int) < (c.den.val : Int) := by exact_mod_cast c.den.property
  nlinarith [mul_le_mul_of_nonneg_right h1 dc.le, mul_le_mul_of_nonneg_right h2 da.le]

theorem JSRat.sub_nonpos (a b : JSRat) : (a.sub b).le (jsInt 0) ↔ a.le b := by
  unfold JSRat.le JSRat.sub jsInt
  simp [sub_nonpos]

theorem JSRat.neg_nonpos (a : JSRat) : a.neg.le (jsInt 0) ↔ (jsInt 0).le a := by
  unfold JSRat.le JSRat.neg jsInt
  simp

theorem JSRat.sub_nonneg (a b : JSRat) : (jsInt 0).le (a.sub b) ↔ b.le a := by
  unfold JSRat.le JSRat.sub jsInt
  simp [sub_nonneg]

/-! ### Generic insertion-sort lemmas -/

theorem orderedInsert_congr {α : Type} {r s : α → α → Prop} [DecidableRel r] [DecidableRel s]
    (a : α) (l : List α) (h : ∀ x ∈ a :: l, ∀ y ∈ a :: l, (r x y ↔ s x y)) :
    List.orderedInsert r a l = List.orderedInsert s a l := by
  induction l with
  | nil => rfl
  | cons b t ih =>
    have hab : r a b ↔ s a b := by
      exact h a (by simp) b (by simp)
    by_cases hr : r a b
    · simp only [List.orderedInsert, if_pos hr, if_pos (hab.mp hr)]
    · have hs : ¬ s a b := fun hc => hr (hab.mpr hc)
      simp only [List.orderedInsert, if_neg hr, if_neg hs]
      have ht : ∀ x ∈ a :: t, ∀ y ∈ a :: t, (r x y ↔ s x y) := by
        intro x hx y hy
        rcases List.mem_cons.mp hx with hx1 | hx1 <;>
          rcases List.mem_cons.mp hy with hy1 | hy1 <;>
            exact h x (by subst_vars; simp; try tauto) y (by subst_vars; simp; try tauto)
      exact congrArg (List.cons b) (ih ht)

theorem insertionSort_congr {α : Type} {r s : α → α → Prop} [DecidableRel r] [DecidableRel s]
    (l : List α) (h : ∀ x ∈ l, ∀ y ∈ l, (r x y ↔ s x y)) :
    List.insertionSort r l = List.insertionSort s l := by
  induction l with
  | nil => rfl
  | cons a t ih =>
    have ht : ∀ x ∈ t, ∀ y ∈ t, (r x y ↔ s x y) := by
      intro x hx y hy
      exact h x (by simp [hx]) y (by simp [hy])
    simp only [List.insertionSort]
    rw [ih ht]
    apply orderedInsert_congr
    intro x hx y hy
    have hmem : ∀ z ∈ a :: List.insertionSort s t, z ∈ a :: t := by
      intro z hz
      rcases List.mem_cons.mp hz with hz1 | hz1
      · simp [hz1]
      · exact List.mem_cons.mpr (Or.inr ((List.perm_insertionSort s t).mem_iff.mp hz1))
    exact h x (hmem x hx) y (hmem y hy)

theorem orderedInsert_of_forall {α : Type} {r : α → α → Prop} [DecidableRel r]
    (a : α) (l : List α) (h : ∀ b ∈ l, r a b) :
    List.orderedInsert r a l = a :: l := by
  cases l with
  | nil => rfl
  | cons b t => exact List.orderedInsert_of_le r t (h b (by simp))

theorem insertionSort_of_forall {α : Type} {r : α → α → Prop} [DecidableRel r]
    (l : List α) (h : ∀ x ∈ l, ∀ y ∈ l, r x y) :
    List.insertionSort r l = l := by
  induction l with
  | nil => rfl
  | cons a t ih =>
    have ht : List.insertionSort r t = t := by
      apply ih
      intro x hx y hy
      exact h x (by simp [hx]) y (by simp [hy])
    simp only [List.insertionSort, ht]
    apply orderedInsert_of_forall
    intro b hb
    exact h a (by simp) b (by simp [hb])

/-! ### Comparator bridges -/

/-- The numeric value the comparator effectively sorts by (`NaN` collapsed
to `0`, which only matters when no theorem hypothesis excludes it). -/
def scoreNum (k : String) (r : Record) : JSRat :=
  match fieldNum r k with
  | .nan => jsInt 0
  | .num q => q

theorem jsInt_le_jsInt (m n : Int) : (jsInt m).le (jsInt n) ↔ m ≤ n := by
  unfold JSRat.le jsInt
  simp

theorem sortCompare_le_iff_asc (locCmp : String → String → Int) (req : QueryReq)
    (hk : sortKey req ≠ "location") (hasc : ascOrder req = true) (a b : Record)
    (ha : fieldNum a (sortKey req) ≠ .nan) (hb : fieldNum b (sortKey req) ≠ .nan) :
    (sortCompare locCmp req a b).le (jsInt 0) ↔
      (scoreNum (sortKey req) a).le (scoreNum (sortKey req) b) := by
  rcases hfa : fieldNum a (sortKey req) with _ | qa
  · exact absurd hfa ha
  rcases hfb : fieldNum b (sortKey req) with _ | qb
  · exact absurd hfb hb
  simp only [sortCompare, if_neg hk, hfa, hfb, jsSub, hasc, if_true, scoreNum]
  exact JSRat.sub_nonpos qa qb

theorem sortCompare_le_iff_desc (locCmp : String → String → Int) (req : QueryReq)
    (hk : sortKey req ≠ "location") (hdesc : ascOrder req = false) (a b : Record)
    (ha : fieldNum a (sortKey req) ≠ .nan) (hb : fieldNum b (sortKey req) ≠ .nan) :
    (sortCompare locCmp req a b).le (jsInt 0) ↔
      (scoreNum (sortKey req) b).le (scoreNum (sortKey req) a) := by
  rcases hfa : fieldNum a (sortKey req) with _ | qa
  · exact absurd hfa ha
  rcases hfb : fieldNum b (sortKey req) with _ | qb
  · exact absurd hfb hb
  simp only [sortCompare, if_neg hk, hfa, hfb, jsSub, hdesc, if_false, Bool.false_eq_true,
    scoreNum]
  rw [JSRat.neg_nonpos]
  exact JSRat.sub_nonneg qa qb

theorem sortCompare_loc_asc (locCmp : String → String → Int) (req : QueryReq)
    (hk : sortKey req = "location") (hasc : ascOrder req = true) (a b : Record) :
    (sortCompare locCmp req a b).le (jsInt 0) ↔
      locCmp (jsvalToString a.location) (jsvalToString b.location) ≤ 0 := by
  simp only [sortCompare, if_pos hk, hasc, if_true]
  exact jsInt_le_jsInt _ 0

theorem sortCompare_loc_desc (locCmp : String → String → Int) (req : QueryReq)
    (hk : sortKey req = "location") (hdesc : ascOrder req = false) (a b : Record) :
    (sortCompare locCmp req a b).le (jsInt 0) ↔
      0 ≤ locCmp (jsvalToString a.location) (jsvalToString b.location) := by
  simp only [sortCompare, if_pos hk, hdesc, if_false, Bool.false_eq_true]
  rw [JSRat.neg_nonpos]
  unfold JSRat.le jsInt
  simp

theorem getField_none (r : Record) (k : String) (h1 : k ≠ "_id") (h2 : k ≠ "price")
    (h3 : k ≠ "location") (h4 : k ≠ "rentalYield") (h5 : k ≠ "createdAt") :
    getField r k = none := by
  simp [getField, h1, h2, h3, h4, h5]

theorem sortCompare_zero_of_nan (locCmp : String → String → Int) (req : QueryReq)
    (hk : sortKey req ≠ "location") (a b : Record)
    (hab : jsSub (fieldNum a (sortKey req)) (fieldNum b (sortKey req)) = .nan) :
    sortCompare locCmp req a b = jsInt 0 := by
  simp only [sortCompare, if_neg hk, hab]
  cases ascOrder req <;> simp [JSRat.neg, jsInt]

theorem sortStep_id_of_le (locCmp : String → String → Int) (req : QueryReq) (l : List Record)
    (h : ∀ x ∈ l, ∀ y ∈ l, (sortCompare locCmp req x y).le (jsInt 0)) :
    sortStep locCmp req l = l := by
  unfold sortStep
  exact insertionSort_of_forall l h

/-- Sortedness of the sort step along any value function that agrees with the
comparator on the list's elements. -/
theorem sortStep_pairwise (locCmp : String → String → Int) (req : QueryReq) (l : List Record)
    (f : Record → JSRat)
    (h : ∀ x ∈ l, ∀ y ∈ l, ((sortCompare locCmp req x y).le (jsInt 0) ↔ (f x).le (f y))) :
    (sortStep locCmp req l).Pairwise (fun x y => (f x).le (f y)) := by
  haveI : IsTotal Record (fun x y => (f x).le (f y)) := ⟨fun x y => JSRat.le_total (f x) (f y)⟩
  haveI : IsTrans Record (fun x y => (f x).le (f y)) := ⟨fun _ _ _ => JSRat.le_trans⟩
  unfold sortStep
  rw [insertionSort_congr l h]
  exact List.sorted_insertionSort (fun x y => (f x).le (f y)) l

/-! ### Filter and store lemmas -/

theorem qFilter_sublist (req : QueryReq) (l : List Record) : List.Sublist (qFilter req l) l := by
  unfold qFilter
  cases req.q with
  | none => exact List.Sublist.refl l
  | some f => exact List.filter_sublist l

theorem priceFilter_sublist (req : QueryReq) (l : List Record) : List.Sublist (priceFilter req l) l := by
  unfold priceFilter
  split
  · cases req.minPrice with
    | none =>
      cases req.maxPrice with
      | none => exact List.Sublist.refl l
      | some m => exact List.filter_sublist l
    | some g =>
      cases req.maxPrice with
      | none => exact List.filter_sublist l
      | some m => exact (List.filter_sublist _).trans (List.filter_sublist l)
  · exact List.Sublist.refl l

theorem yieldFilter_sublist (req : QueryReq) (l : List Record) : List.Sublist (yieldFilter req l) l := by
  unfold yieldFilter
  split
  · cases req.minYield with
    | none =>
      cases req.maxYield with
      | none => exact List.Sublist.refl l
      | some m => exact List.filter_sublist l
    | some g =>
      cases req.maxYield with
      | none => exact List.filter_sublist l
      | some m => exact (List.filter_sublist _).trans (List.filter_sublist l)
  · exact List.Sublist.refl l

theorem filteredList_sublist (req : QueryReq) (mem : List Record) :
    List.Sublist (filteredList req mem) mem :=
  ((yieldFilter_sublist req _).trans (priceFilter_sublist req _)).trans (qFilter_sublist req mem)

theorem mem_volatileQuery_items (locCmp : String → String → Int) (req : QueryReq)
    (mem : List Record) (x : Record) (hx : x ∈ (volatileQuery locCmp req mem).items) :
    x ∈ mem := by
  unfold volatileQuery at hx
  simp only at hx
  have h1 : x ∈ sortStep locCmp req (filteredList req mem) :=
    List.drop_subset _ _ (List.take_subset _ _ hx)
  have h2 : x ∈ filteredList req mem :=
    (List.perm_insertionSort _ _).mem_iff.mp h1
  exact (filteredList_sublist req mem).subset h2

theorem updateVolatile_liveIds (pid : String) (b : ReqBody) (mem : List Record) :
    liveIds (updateVolatile pid b mem).2 = liveIds mem := by
  induction mem with
  | nil => rfl
  | cons r rest ih =>
    unfold updateVolatile
    by_cases h : r._id = pid
    · simp [h, liveIds]
    · simp only [if_neg h]
      simp only [liveIds, List.map_cons] at ih ⊢
      rw [ih]

theorem deleteVolatile_sublist (pid : String) (mem : List Record) :
    List.Sublist (deleteVolatile pid mem).2 mem := by
  induction mem with
  | nil => exact List.Sublist.refl []
  | cons r rest ih =>
    unfold deleteVolatile
    by_cases h : r._id = pid
    · simp only [if_pos h]
      exact List.sublist_cons_self r rest
    · simp only [if_neg h]
      exact List.Sublist.cons₂ r ih

theorem updateVolatile_not_found (pid : String) (b : ReqBody) (mem : List Record)
    (h : ∀ r ∈ mem, r._id ≠ pid) : updateVolatile pid b mem = (none, mem) := by
  induction mem with
  | nil => rfl
  | cons r rest ih =>
    unfold updateVolatile
    rw [if_neg (h r (by simp))]
    rw [ih (fun x hx => h x (by simp [hx]))]

theorem updateVolatile_found (pid : String) (b : ReqBody) (mem : List Record) (r' : Record)
    (h : (updateVolatile pid b mem).1 = some r') :
    ∃ pre x post, mem = pre ++ x :: post ∧ (∀ y ∈ pre, y._id ≠ pid) ∧ x._id = pid ∧
      r' = { x with price := b.price, location := b.location, rentalYield := b.rentalYield } ∧
      (updateVolatile pid b mem).2 = pre ++ r' :: post := by
  induction mem with
  | nil => exact absurd h (by simp [updateVolatile])
  | cons r rest ih =>
    by_cases hid : r._id = pid
    · refine ⟨[], r, rest, by simp, by simp, hid, ?_, ?_⟩
      · unfold updateVolatile at h
        rw [if_pos hid] at h
        simp only [Option.some.injEq] at h
        exact h.symm
      · unfold updateVolatile at h ⊢
        rw [if_pos hid] at h ⊢
        simp only [Option.some.injEq] at h
        simp [h]
    · unfold updateVolatile at h
      rw [if_neg hid] at h
      simp only at h
      obtain ⟨pre, x, post, hmem, hpre, hx, hr', hsnd⟩ := ih h
      refine ⟨r :: pre, x, post, by simp [hmem], ?_, hx, hr', ?_⟩
      · intro y hy
        rcases List.mem_cons.mp hy with hy1 | hy1
        · subst hy1; exact hid
        · exact hpre y hy1
      · unfold updateVolatile
        rw [if_neg hid]
        simp [hsnd]

theorem deleteVolatile_id_not_mem (pid : String) (mem : List Record)
    (hnd : (liveIds mem).Nodup) : pid ∉ liveIds (deleteVolatile pid mem).2 := by
  induction mem with
  | nil => simp [deleteVolatile, liveIds]
  | cons r rest ih =>
    simp only [liveIds, List.map_cons, List.nodup_cons] at hnd
    unfold deleteVolatile
    by_cases h : r._id = pid
    · simpa [if_pos h, liveIds, h] using fun hc => hnd.1 (h ▸ hc)
    · simp only [if_neg h, liveIds, List.map_cons, List.mem_cons]
      rintro (hc | hc)
      · exact h hc.symm
      · exact ih hnd.2 hc

/-! ### Decimal representation (`String(Date.now())`) -/

theorem toDigitsCore_append (b : Nat) :
    ∀ (fuel n : Nat) (ds : List Char),
      Nat.toDigitsCore b fuel n ds = Nat.toDigitsCore b fuel n [] ++ ds := by
  intro fuel
  induction fuel with
  | zero => intro n ds; rfl
  | succ f ih =>
    intro n ds
    simp only [Nat.toDigitsCore]
    by_cases h : n / b = 0
    · simp [h]
    · simp only [if_neg h]
      rw [ih (n / b) (Nat.digitChar (n % b) :: ds), ih (n / b) [Nat.digitChar (n % b)]]
      simp

theorem toDigitsCore_fuel_irrel (b : Nat) (hb : 2 ≤ b) :
    ∀ (n fuel fuel' : Nat), n < fuel → n < fuel' →
      Nat.toDigitsCore b fuel n [] = Nat.toDigitsCore b fuel' n [] := by
  intro n
  induction n using Nat.strong_induction_on with
  | _ n ih =>
    intro fuel fuel' hf hf'
    cases fuel with
    | zero => exact absurd hf (Nat.not_lt_zero n)
    | succ f =>
      cases fuel' with
      | zero => exact absurd hf' (Nat.not_lt_zero n)
      | succ f' =>
        simp only [Nat.toDigitsCore]
        by_cases h : n / b = 0
        · simp [h]
        · simp only [if_neg h]
          have hdiv : n / b < n := by
            apply Nat.div_lt_self
            · rcases Nat.eq_zero_or_pos n with h0 | h0
              · exact absurd (by simp [h0]) h
              · exact h0
            · omega
          rw [toDigitsCore_append b f (n / b), toDigitsCore_append b f' (n / b)]
          rw [ih (n / b) hdiv f f' (by omega) (by omega)]

theorem toDigits_lt10 (n : Nat) (h : n < 10) : Nat.toDigits 10 n = [Nat.digitChar n] := by
  simp [Nat.toDigits, Nat.toDigitsCore, Nat.div_eq_of_lt h, Nat.mod_eq_of_lt h]

theorem toDigits_ge10 (n : Nat) (h : 10 ≤ n) :
    Nat.toDigits 10 n = Nat.toDigits 10 (n / 10) ++ [Nat.digitChar (n % 10)] := by
  have hne : n / 10 ≠ 0 := by
    intro hc
    have := Nat.div_eq_of_lt (by omega : n < 10)
    omega
  have hdiv : n / 10 < n := Nat.div_lt_self (by omega) (by omega)
  have hstep : Nat.toDigits 10 n =
      Nat.toDigitsCore 10 n (n / 10) [Nat.digitChar (n % 10)] := by
    simp only [Nat.toDigits, Nat.toDigitsCore, if_neg hne]
  rw [hstep, toDigitsCore_append 10 n (n / 10)]
  rw [toDigitsCore_fuel_irrel 10 (by omega) (n / 10) n (n / 10 + 1) (by omega) (by omega)]
  rfl

theorem toDigits_ne_nil (n : Nat) : Nat.toDigits 10 n ≠ [] := by
  by_cases h : n < 10
  · simp [toDigits_lt10 n h]
  · rw [toDigits_ge10 n (by omega)]
    simp

theorem digitChar_inj (a b : Nat) (ha : a < 10) (hb : b < 10)
    (h : Nat.digitChar a = Nat.digitChar b) : a = b := by
  interval_cases a <;> interval_cases b <;> first | rfl | (exfalso; revert h; decide)

theorem toDigits_inj (a : Nat) : ∀ b : Nat, Nat.toDigits 10 a = Nat.toDigits 10 b → a = b := by
  induction a using Nat.strong_induction_on with
  | _ a ih =>
    intro b h
    by_cases ha : a < 10 <;> by_cases hb : b < 10
    · rw [toDigits_lt10 a ha, toDigits_lt10 b hb] at h
      simp only [List.cons.injEq, and_true] at h
      exact digitChar_inj a b ha hb h
    · rw [toDigits_lt10 a ha, toDigits_ge10 b (by omega)] at h
      have := congrArg List.length h
      simp at this
      exact absurd this (toDigits_ne_nil (b / 10))
    · rw [toDigits_ge10 a (by omega), toDigits_lt10 b hb] at h
      have := congrArg List.length h
      simp at this
      exact absurd this (toDigits_ne_nil (a / 10))
    · rw [toDigits_ge10 a (by omega), toDigits_ge10 b (by omega)] at h
      have hsplit := List.append_inj' h (by simp)
      have h1 : a / 10 = b / 10 := ih (a / 10) (Nat.div_lt_self (by omega) (by omega)) (b / 10) hsplit.1
      have h2 : a % 10 = b % 10 := by
        have := hsplit.2
        simp only [List.cons.injEq] at this
        exact digitChar_inj _ _ (Nat.mod_lt a (by omega)) (Nat.mod_lt b (by omega)) this.1
      omega

theorem natRepr_ne_empty (n : Nat) : Nat.repr n ≠ "" := by
  simp only [Nat.repr]
  intro hc
  exact toDigits_ne_nil n (congrArg String.data hc)

theorem natRepr_inj (a b : Nat) (h : Nat.repr a = Nat.repr b) : a = b := by
  simp only [Nat.repr] at h
  exact toDigits_inj a b (congrArg String.data h)

/-! ### Store-evolution invariants -/

theorem createVolatile_liveIds (b : ReqBody) (t : Nat) (iso : String) (mem : List Record) :
    liveIds (createVolatile b t iso mem).memory = Nat.repr t :: liveIds mem :=
  rfl

theorem deleteVolatile_liveIds_sublist (pid : String) (mem : List Record) :
    List.Sublist (liveIds (deleteVolatile pid mem).2) (liveIds mem) := by
  unfold liveIds
  exact (deleteVolatile_sublist pid mem).map (fun r => r._id)

theorem runOps_nodup_aux (ops : List Op) :
    ∀ mem : List Record, (liveIds mem).Nodup →
      (∀ i ∈ liveIds mem, ∀ t ∈ createTimes ops, i ≠ Nat.repr t) →
      (createTimes ops).Pairwise (fun s t => s ≠ t) →
      (liveIds (runOps mem ops)).Nodup := by
  induction ops with
  | nil => intro mem hnd _ _; exact hnd
  | cons op rest ih =>
    intro mem hnd hfresh hpair
    cases op with
    | create b t iso =>
      simp only [runOps, stepOp]
      have htmem : t ∈ createTimes (Op.create b t iso :: rest) := by
        simp [createTimes]
      apply ih
      · rw [createVolatile_liveIds]
        refine List.nodup_cons.mpr ⟨?_, hnd⟩
        intro hc
        exact hfresh (Nat.repr t) hc t htmem rfl
      · rw [createVolatile_liveIds]
        intro i hi u hu
        rcases List.mem_cons.mp hi with hi1 | hi1
        · subst hi1
          intro hc
          have : t = u := natRepr_inj t u hc
          subst this
          have hp := List.pairwise_cons.mp hpair
          exact hp.1 t hu rfl
        · exact hfresh i hi1 u (by simp [createTimes, hu])
      · exact (List.pairwise_cons.mp hpair).2
    | update pid b =>
      simp only [runOps, stepOp]
      apply ih
      · rw [updateVolatile_liveIds]; exact hnd
      · rw [updateVolatile_liveIds]
        intro i hi u hu
        exact hfresh i hi u (by simp [createTimes, hu])
      · exact hpair
    | del pid =>
      simp only [runOps, stepOp]
      apply ih
      · exact hnd.sublist (deleteVolatile_liveIds_sublist pid mem)
      · intro i hi u hu
        exact hfresh i ((deleteVolatile_liveIds_sublist pid mem).subset hi) u
          (by simp [createTimes, hu])
      · exact hpair

theorem runOps_ids_ne_empty_aux (ops : List Op) :
    ∀ mem : List Record, (∀ i ∈ liveIds mem, i ≠ "") →
      ∀ i ∈ liveIds (runOps mem ops), i ≠ "" := by
  induction ops with
  | nil => intro mem h; exact h
  | cons op rest ih =>
    intro mem h
    cases op with
    | create b t iso =>
      simp only [runOps, stepOp]
      apply ih
      rw [createVolatile_liveIds]
      intro i hi
      rcases List.mem_cons.mp hi with hi1 | hi1
      · subst hi1; exact natRepr_ne_empty t
      · exact h i hi1
    | update pid b =>
      simp only [runOps, stepOp]
      apply ih
      rw [updateVolatile_liveIds]
      exact h
    | del pid =>
      simp only [runOps, stepOp]
      apply ih
      intro i hi
      exact h i ((deleteVolatile_liveIds_sublist pid mem).subset hi)

/-! ### Concrete fixtures used by witnesses and counterexamples -/

/-- The query with every parameter absent. -/
def reqDefault : QueryReq :=
  ⟨none, none, none, none, none, none, none, none, none⟩

/-- A trivial collation (any total collation works for the witnesses). -/
def cmpTrivial : String → String → Int := fun _ _ => 0

/-- A concrete body: `{price: 100, location: "Paris", rentalYield: 5}`. -/
def bodyParis : ReqBody :=
  ⟨.num (.num (jsInt 100)), .str ("Paris"), .num (.num (jsInt 5))⟩

/-- A concrete body: `{price: 50, location: "Lyon", rentalYield: 6}`. -/
def bodyLyon : ReqBody :=
  ⟨.num (.num (jsInt 50)), .str ("Lyon"), .num (.num (jsInt 6))⟩

/-- Store after creating `bodyParis` at `t=1` then `bodyLyon` at `t=2`
(newest first, ids `"2"`, `"1"`). -/
def memTwo : List Record :=
  runOps [] [.create bodyParis 1 ("2024-06-01T00:00:00.000Z"),
             .create bodyLyon 2 ("2024-06-02T00:00:00.000Z")]

/-! ### Claims -/

/-- Claim C4 (counterexample): for `pageSize="0"` an integer parses (0), whose
clamp to `[1, 100]` is `1`, but the effective pageSize is the default `20`
because `0` is falsy in `parseInt(pageSize, 10) || 20`. -/
theorem C4_pagination_counterexample :
    parseIntJS ("0") = some 0 ∧
    sizeNum { reqDefault with pageSize := some ("0") } ≠ min (max (0:Int) 1) 100 := by
  decide

/-- Claim C4 (amended): the effective page is the parsed page clamped to
minimum 1 (default 1 when parsing fails), and the effective pageSize is the
parsed pageSize clamped to `[1, 100]` (default 20 when parsing fails),
except that a parsed pageSize of `0` — falsy in JS — also falls back to the
default 20 instead of being clamped to 1; bounds `page ≥ 1` and
`1 ≤ pageSize ≤ 100` hold for every input. -/
theorem C4_pagination_normalization (req : QueryReq) :
    (1 ≤ pageNum req ∧ 1 ≤ sizeNum req ∧ sizeNum req ≤ 100) ∧
    (∀ s v, req.page = some s → parseIntJS s = some v → pageNum req = max v 1) ∧
    ((req.page = none ∨ ∃ s, req.page = some s ∧ parseIntJS s = none) → pageNum req = 1) ∧
    (∀ s v, req.pageSize = some s → parseIntJS s = some v → v ≠ 0 →
        sizeNum req = min (max v 1) 100) ∧
    ((req.pageSize = none ∨
        ∃ s, req.pageSize = some s ∧ (parseIntJS s = none ∨ parseIntJS s = some 0)) →
      sizeNum req = 20) := by
  refine ⟨⟨le_max_right _ 1, ?_, ?_⟩, ?_, ?_, ?_, ?_⟩
  · exact le_min (le_max_right _ 1) (by omega)
  · exact min_le_right _ 100
  · intro s v hs hv
    simp only [pageNum, hs, Option.getD_some, hv, jsOrDefault]
    by_cases h0 : v = 0
    · subst h0; simp
    · rw [if_neg h0]
  · rintro (hs | ⟨s, hs, hv⟩)
    · simp only [pageNum, hs, Option.getD_none]
      decide
    · simp only [pageNum, hs, Option.getD_some, hv, jsOrDefault]
      decide
  · intro s v hs hv h0
    simp only [sizeNum, hs, Option.getD_some, hv, jsOrDefault, if_neg h0]
  · rintro (hs | ⟨s, hs, (hv | hv)⟩)
    · simp only [sizeNum, hs, Option.getD_none]
      decide
    · simp only [sizeNum, hs, Option.getD_some, hv, jsOrDefault]
      decide
    · simp only [sizeNum, hs, Option.getD_some, hv, jsOrDefault]
      decide

/-- Claim C4 witness: `page="3"`, `pageSize="7"` normalize to 3 and 7. -/
theorem C4_pagination_normalization_witness :
    pageNum { reqDefault with page := some ("3"), pageSize := some ("7") } = 3 ∧
    sizeNum { reqDefault with page := some ("3"), pageSize := some ("7") } = 7 := by
  have h := C4_pagination_normalization { reqDefault with page := some ("3"), pageSize := some ("7") }
  constructor
  · have hp := h.2.1 ("3") 3 rfl (by decide)
    rw [hp]; decide
  · have hs := h.2.2.2.1 ("7") 7 rfl (by decide) (by decide)
    rw [hs]; decide

/-- Claim C5 (counterexample): a volatile POST whose body lacks all three
fields does not fail with 400 and does add a record (status 201, store grows). -/
theorem C5_create_counterexample :
    (createVolatile ⟨.undef, .undef, .undef⟩ 5 ("2024-06-01T00:00:00.000Z") []).status ≠ 400 ∧
    (createVolatile ⟨.undef, .undef, .undef⟩ 5 ("2024-06-01T00:00:00.000Z") []).memory ≠ [] := by
  decide

/-- Claim C5 (amended): the volatile create performs no validation: every
POST returns 201 and prepends the coerced record to the store; a field absent
from the body is coerced (`Number(undefined) = NaN` for price/rentalYield,
`String(undefined) = "undefined"` for location) rather than rejected. -/
theorem C5_create_no_validation (b : ReqBody) (t : Nat) (iso : String) (mem : List Record) :
    (createVolatile b t iso mem).status = 201 ∧
    (createVolatile b t iso mem).memory = (createVolatile b t iso mem).record :: mem ∧
    (b.price = .undef → (createVolatile b t iso mem).record.price = .num .nan) ∧
    (b.location = .undef → (createVolatile b t iso mem).record.location = .str ("undefined")) ∧
    (b.rentalYield = .undef → (createVolatile b t iso mem).record.rentalYield = .num .nan) := by
  refine ⟨rfl, rfl, ?_, ?_, ?_⟩ <;>
    · intro h
      simp [createVolatile, h, jsvalToNumber, jsvalToString]

/-- Claim C5 witness: the amended claim at the all-absent body. -/
theorem C5_create_no_validation_witness :
    (createVolatile ⟨.undef, .undef, .undef⟩ 5 ("2024-06-01T00:00:00.000Z") []).status = 201 ∧
    (createVolatile ⟨.undef, .undef, .undef⟩ 5 ("2024-06-01T00:00:00.000Z") []).record.price
      = .num .nan ∧
    (createVolatile ⟨.undef, .undef, .undef⟩ 5 ("2024-06-01T00:00:00.000Z") []).record.location
      = .str ("undefined") := by
  have h := C5_create_no_validation ⟨.undef, .undef, .undef⟩ 5 ("2024-06-01T00:00:00.000Z") []
  exact ⟨h.1, h.2.2.1 rfl, h.2.2.2.1 rfl⟩

/-- Claim C7: a volatile PUT on an id that no stored record carries responds
404 and leaves the backing list exactly as it was. -/
theorem C7_update_missing_404 (pid : String) (b : ReqBody) (mem : List Record)
    (h : ∀ r ∈ mem, r._id ≠ pid) :
    putStatus (updateVolatile pid b mem).1 = 404 ∧ (updateVolatile pid b mem).2 = mem := by
  rw [updateVolatile_not_found pid b mem h]
  exact ⟨rfl, rfl⟩

/-- Claim C7 witness: updating id `"9"` in a two-record store. -/
theorem C7_update_missing_404_witness :
    putStatus (updateVolatile ("9") bodyParis memTwo).1 = 404 ∧
    (updateVolatile ("9") bodyParis memTwo).2 = memTwo :=
  C7_update_missing_404 ("9") bodyParis memTwo (by decide)

theorem jsGE_nan_right (x : JSNum) : jsGE x .nan = false := by
  cases x <;> rfl

theorem jsLE_nan_right (x : JSNum) : jsLE x .nan = false := by
  cases x <;> rfl

theorem priceFilter_nil (req : QueryReq) : priceFilter req [] = [] := by
  unfold priceFilter
  cases req.minPrice <;> cases req.maxPrice <;> simp

theorem yieldFilter_nil (req : QueryReq) : yieldFilter req [] = [] := by
  unfold yieldFilter
  cases req.minYield <;> cases req.maxYield <;> simp

theorem priceFilter_min_nan (req : QueryReq) (l : List Record)
    (h : req.minPrice = some .nan) : priceFilter req l = [] := by
  unfold priceFilter
  rw [h]
  simp only [Option.isSome_some, true_or, if_true]
  have : (l.filter (fun x => jsGE (jsvalToNumber x.price) JSNum.nan)) = [] := by
    simp [jsGE_nan_right]
  rw [this]
  cases req.maxPrice <;> simp

theorem priceFilter_max_nan (req : QueryReq) (l : List Record)
    (h : req.maxPrice = some .nan) : priceFilter req l = [] := by
  unfold priceFilter
  rw [h]
  simp only [Option.isSome_some, or_true, if_true]
  cases req.minPrice <;> simp [jsLE_nan_right]

theorem yieldFilter_min_nan (req : QueryReq) (l : List Record)
    (h : req.minYield = some .nan) : yieldFilter req l = [] := by
  unfold yieldFilter
  rw [h]
  simp only [Option.isSome_some, true_or, if_true]
  have : (l.filter (fun x => jsGE (jsvalToNumber x.rentalYield) JSNum.nan)) = [] := by
    simp [jsGE_nan_right]
  rw [this]
  cases req.maxYield <;> simp

theorem yieldFilter_max_nan (req : QueryReq) (l : List Record)
    (h : req.maxYield = some .nan) : yieldFilter req l = [] := by
  unfold yieldFilter
  rw [h]
  simp only [Option.isSome_some, or_true, if_true]
  cases req.minYield <;> simp [jsLE_nan_right]

theorem volatileQuery_of_filtered_nil (locCmp : String → String → Int) (req : QueryReq)
    (mem : List Record) (h : filteredList req mem = []) :
    (volatileQuery locCmp req mem).items = [] ∧ (volatileQuery locCmp req mem).total = 0 := by
  unfold volatileQuery
  rw [h]
  simp [sortStep]

/-- Claim C1 (counterexample): a `minPrice` that does not parse as a number is
not treated as an absent bound — with `minPrice = NaN` the query returns no
items at all, unlike the same query without the parameter. -/
theorem C1_bounds_counterexample :
    volatileQuery cmpTrivial { reqDefault with minPrice := some .nan } memTwo ≠
      volatileQuery cmpTrivial reqDefault memTwo ∧
    (volatileQuery cmpTrivial { reqDefault with minPrice := some .nan } memTwo).items = [] ∧
    (volatileQuery cmpTrivial reqDefault memTwo).total = 2 := by
  decide

/-- Claim C1 (amended): a missing (or empty, hence falsy) bound parameter is
treated as absent — the corresponding filter is not applied; but a present
bound that does not parse as a number becomes a `NaN` bound which every
comparison fails, so the query returns no items and `total = 0` (still no
error). -/
theorem C1_bounds_lenient (locCmp : String → String → Int) (req : QueryReq)
    (mem l : List Record) :
    (req.minPrice = none ∧ req.maxPrice = none → priceFilter req l = l) ∧
    (req.minYield = none ∧ req.maxYield = none → yieldFilter req l = l) ∧
    ((req.minPrice = some .nan ∨ req.maxPrice = some .nan ∨
        req.minYield = some .nan ∨ req.maxYield = some .nan) →
      (volatileQuery locCmp req mem).items = [] ∧ (volatileQuery locCmp req mem).total = 0) := by
  refine ⟨?_, ?_, ?_⟩
  · rintro ⟨h1, h2⟩
    simp [priceFilter, h1, h2]
  · rintro ⟨h1, h2⟩
    simp [yieldFilter, h1, h2]
  · intro hcase
    apply volatileQuery_of_filtered_nil
    unfold filteredList
    rcases hcase with h | h | h | h
    · rw [priceFilter_min_nan req _ h, yieldFilter_nil]
    · rw [priceFilter_max_nan req _ h, yieldFilter_nil]
    · exact yieldFilter_min_nan req _ h
    · exact yieldFilter_max_nan req _ h

/-- Claim C1 witness: absent bounds leave the store unfiltered; a `NaN`
`minPrice` empties the result. -/
theorem C1_bounds_lenient_witness :
    priceFilter reqDefault memTwo = memTwo ∧
    (volatileQuery cmpTrivial { reqDefault with minPrice := some .nan } memTwo).items = [] :=
  ⟨(C1_bounds_lenient cmpTrivial reqDefault memTwo memTwo).1 ⟨rfl, rfl⟩,
   ((C1_bounds_lenient cmpTrivial { reqDefault with minPrice := some .nan } memTwo memTwo).2.2
      (Or.inl rfl)).1⟩

/-- Claim C3: the volatile query returns at most `pageSize` items, its
`total` is the filtered count (before pagination) and does not depend on
`page`, and the items are exactly the window of the sorted filtered list
starting at `(page - 1) * pageSize`. -/
theorem C3_pagination (locCmp : String → String → Int) (req : QueryReq) (mem : List Record) :
    (volatileQuery locCmp req mem).items.length ≤ (sizeNum req).toNat ∧
    (volatileQuery locCmp req mem).total = (filteredList req mem).length ∧
    (volatileQuery locCmp req mem).items =
      ((sortStep locCmp req (filteredList req mem)).drop
          ((pageNum req - 1) * sizeNum req).toNat).take (sizeNum req).toNat ∧
    (∀ p : Option String,
      (volatileQuery locCmp { req with page := p } mem).total =
        (volatileQuery locCmp req mem).total) := by
  refine ⟨?_, ?_, rfl, fun p => rfl⟩
  · exact List.length_take_le _ _
  · unfold volatileQuery
    simp only
    exact (List.perm_insertionSort _ _).length_eq

/-- Store with two records created in the same millisecond (`Date.now() = 5`):
both receive id `"5"`. -/
def memDup : List Record :=
  runOps [] [.create bodyParis 5 ("2024-06-01T00:00:00.000Z"),
             .create bodyLyon 5 ("2024-06-01T00:00:00.001Z")]

/-- The record produced by updating id `"1"` of `memTwo` with `bodyLyon`. -/
def rUpd : Record :=
  ⟨("1"), bodyLyon.price, bodyLyon.location, bodyLyon.rentalYield, ("2024-06-01T00:00:00.000Z")⟩

/-- Claim C9: a successful volatile PUT rewrites exactly the matched record —
keeping its `_id` and `createdAt`, replacing `price`, `location` and
`rentalYield` with the raw request-body values — and leaves every other
record (the prefix before it and the suffix after it) untouched. -/
theorem C9_update_frame (pid : String) (b : ReqBody) (mem : List Record) (r' : Record)
    (h : (updateVolatile pid b mem).1 = some r') :
    ∃ pre x post, mem = pre ++ x :: post ∧ x._id = pid ∧
      r'._id = x._id ∧ r'.createdAt = x.createdAt ∧
      r'.price = b.price ∧ r'.location = b.location ∧ r'.rentalYield = b.rentalYield ∧
      (updateVolatile pid b mem).2 = pre ++ r' :: post := by
  obtain ⟨pre, x, post, hmem, hpre, hx, hr', hsnd⟩ := updateVolatile_found pid b mem r' h
  subst hr'
  exact ⟨pre, x, post, hmem, hx, rfl, rfl, rfl, rfl, rfl, hsnd⟩

/-- Claim C9 witness: updating id `"1"` of the two-record store with
`bodyLyon` produces `rUpd` in place. -/
theorem C9_update_frame_witness :
    ∃ pre x post, memTwo = pre ++ x :: post ∧ x._id = ("1") ∧
      rUpd._id = x._id ∧ rUpd.createdAt = x.createdAt ∧
      rUpd.price = bodyLyon.price ∧ rUpd.location = bodyLyon.location ∧
      rUpd.rentalYield = bodyLyon.rentalYield ∧
      (updateVolatile ("1") bodyLyon memTwo).2 = pre ++ rUpd :: post :=
  C9_update_frame ("1") bodyLyon memTwo rUpd (by decide)

/-- Claim C6 (counterexample): two creates in the same millisecond produce
records with equal ids, so id uniqueness fails as stated. -/
theorem C6_id_counterexample :
    liveIds memDup = [("5"), ("5")] ∧ ¬ (liveIds memDup).Nodup := by
  decide

/-- Claim C6 (amended): a volatile id is `String(Date.now())`, hence always a
non-empty string, and after any sequence of create/update/delete operations
whose creates consumed pairwise-distinct `Date.now()` values the live ids are
pairwise distinct; uniqueness can fail only when two creates share a
millisecond timestamp. -/
theorem C6_id_unique (ops : List Op)
    (hdist : (createTimes ops).Pairwise (fun s t => s ≠ t)) :
    (liveIds (runOps [] ops)).Nodup ∧ ∀ i ∈ liveIds (runOps [] ops), i ≠ "" := by
  constructor
  · exact runOps_nodup_aux ops [] (by simp [liveIds]) (by simp [liveIds]) hdist
  · exact runOps_ids_ne_empty_aux ops [] (by simp [liveIds])

/-- Claim C6 witness: three operations with distinct creation timestamps. -/
theorem C6_id_unique_witness :
    (liveIds (runOps [] [.create bodyParis 1 ("a"), .create bodyLyon 2 ("b"),
        .del ("1")])).Nodup ∧
    ∀ i ∈ liveIds (runOps [] [.create bodyParis 1 ("a"), .create bodyLyon 2 ("b"),
        .del ("1")]), i ≠ "" :=
  C6_id_unique [.create bodyParis 1 ("a"), .create bodyLyon 2 ("b"), .del ("1")] (by decide)

/-- Claim C8 (counterexample): with two same-millisecond records both carrying
id `"5"`, deleting `"5"` succeeds yet a subsequent unfiltered query still
returns an item with id `"5"` — the id was never re-created. -/
theorem C8_delete_counterexample :
    (deleteVolatile ("5") memDup).1 = true ∧
    ("5") ∈ (volatileQuery cmpTrivial reqDefault
        (deleteVolatile ("5") memDup).2).items.map (fun r => r._id) := by
  decide

/-- Claim C8 (amended): when the live ids are pairwise distinct (which holds
whenever the creates' timestamps were distinct, see the id-uniqueness claim),
after a successful DELETE of an id no query on the resulting store — queries
never mutate it — returns an item with that id. -/
theorem C8_delete_permanent (pid : String) (mem : List Record)
    (hnd : (liveIds mem).Nodup) (hdel : (deleteVolatile pid mem).1 = true)
    (locCmp : String → String → Int) (req : QueryReq) :
    pid ∉ (volatileQuery locCmp req (deleteVolatile pid mem).2).items.map (fun r => r._id) := by
  intro hc
  obtain ⟨x, hx, hxid⟩ := List.mem_map.mp hc
  have hxmem := mem_volatileQuery_items locCmp req _ x hx
  have hin : pid ∈ liveIds (deleteVolatile pid mem).2 := List.mem_map.mpr ⟨x, hxmem, hxid⟩
  exact deleteVolatile_id_not_mem pid mem hnd hin

/-- Claim C8 witness: deleting id `"2"` from the two-record store. -/
theorem C8_delete_permanent_witness :
    ("2") ∉ (volatileQuery cmpTrivial reqDefault
        (deleteVolatile ("2") memTwo).2).items.map (fun r => r._id) :=
  C8_delete_permanent ("2") memTwo (by decide) (by decide) cmpTrivial reqDefault

theorem items_sublist_sortStep (locCmp : String → String → Int) (req : QueryReq)
    (mem : List Record) :
    List.Sublist (volatileQuery locCmp req mem).items
      (sortStep locCmp req (filteredList req mem)) := by
  unfold volatileQuery
  simp only
  exact (List.take_sublist _ _).trans (List.drop_sublist _ _)

theorem sortStep_pairwise_rel (locCmp : String → String → Int) (req : QueryReq)
    (l : List Record) (R : Record → Record → Prop) [DecidableRel R]
    (htot : ∀ a b, R a b ∨ R b a) (htrans : ∀ a b c, R a b → R b c → R a c)
    (h : ∀ x ∈ l, ∀ y ∈ l, ((sortCompare locCmp req x y).le (jsInt 0) ↔ R x y)) :
    (sortStep locCmp req l).Pairwise R := by
  haveI : IsTotal Record R := ⟨htot⟩
  haveI : IsTrans Record R := ⟨fun a b c => htrans a b c⟩
  unfold sortStep
  rw [insertionSort_congr l h]
  exact List.sorted_insertionSort R l

theorem jsInt_zero_sub_zero : (jsInt 0).sub (jsInt 0) = jsInt 0 := by
  decide

theorem jsInt_zero_le_zero : (jsInt 0).le (jsInt 0) := by
  decide

/-- Claim C10 (counterexample): `sortBy=_id` is outside
`{price, location, rentalYield, createdAt}`, yet the comparator is not `0` on
all pairs: `a["_id"] ?? 0` yields the numeric id strings, whose subtraction
reorders the records, so the filtered order is not preserved. -/
theorem C10_sortBy_counterexample :
    (volatileQuery cmpTrivial { reqDefault with sortBy := some ("_id"), order := some ("asc") }
        memTwo).items.map (fun r => r._id) = [("1"), ("2")] ∧
    (filteredList { reqDefault with sortBy := some ("_id"), order := some ("asc") }
        memTwo).map (fun r => r._id) = [("2"), ("1")] := by
  decide

/-- Claim C10 (amended): for a `sortBy` that is none of the record's own keys
(`_id`, `price`, `location`, `rentalYield`, `createdAt`), every field lookup
misses and is coalesced to `0`, the comparator evaluates to `0` on all pairs,
no error is raised, and the returned items are the (unsorted) filtered list's
pagination window — insertion order, newest first.  For `sortBy=_id` —
outside the claim's four keys but an own key — the comparator instead
numerically compares the id strings. -/
theorem C10_unknown_sortBy (locCmp : String → String → Int) (req : QueryReq) (mem : List Record)
    (h1 : sortKey req ≠ ("_id")) (h2 : sortKey req ≠ ("price"))
    (h3 : sortKey req ≠ ("location")) (h4 : sortKey req ≠ ("rentalYield"))
    (h5 : sortKey req ≠ ("createdAt")) :
    (∀ a b : Record, sortCompare locCmp req a b = jsInt 0) ∧
    sortStep locCmp req (filteredList req mem) = filteredList req mem ∧
    (volatileQuery locCmp req mem).items =
      ((filteredList req mem).drop ((pageNum req - 1) * sizeNum req).toNat).take
        (sizeNum req).toNat := by
  have hfield : ∀ r : Record, fieldNum r (sortKey req) = .num (jsInt 0) := by
    intro r
    simp [fieldNum, getField_none r (sortKey req) h1 h2 h3 h4 h5, jsvalToNumber]
  have hcomp : ∀ a b : Record, sortCompare locCmp req a b = jsInt 0 := by
    intro a b
    simp only [sortCompare, if_neg h3, hfield, jsSub, jsInt_zero_sub_zero]
    cases ascOrder req <;> simp [JSRat.neg, jsInt]
  have hsort : sortStep locCmp req (filteredList req mem) = filteredList req mem := by
    apply sortStep_id_of_le
    intro x _ y _
    rw [hcomp x y]
    exact jsInt_zero_le_zero
  refine ⟨hcomp, hsort, ?_⟩
  unfold volatileQuery
  simp only
  rw [hsort]

/-- Claim C10 witness: `sortBy=foo` preserves the stored order. -/
theorem C10_unknown_sortBy_witness :
    sortStep cmpTrivial { reqDefault with sortBy := some ("foo") } (filteredList
        { reqDefault with sortBy := some ("foo") } memTwo) =
      filteredList { reqDefault with sortBy := some ("foo") } memTwo :=
  (C10_unknown_sortBy cmpTrivial { reqDefault with sortBy := some ("foo") } memTwo
    (by decide) (by decide) (by decide) (by decide) (by decide)).2.1

/-- The record created first (id `"1"`, older `createdAt`). -/
def recParis : Record := (createVolatile bodyParis 1 ("2024-06-01T00:00:00.000Z") []).record

/-- The record created second (id `"2"`, newer `createdAt`). -/
def recLyon : Record := (createVolatile bodyLyon 2 ("2024-06-02T00:00:00.000Z") []).record

/-- Claim C2 (counterexample): with `sortBy=createdAt&order=asc` the query
returns the records newest-first (the stored order), not ordered by their
`createdAt`: the comparator subtracts ISO strings, which gives `NaN`, treated
as `0` by the sort.  The two `createdAt` values differ, yet the comparator
returns `0` and no reordering happens. -/
theorem C2_sort_counterexample :
    (volatileQuery cmpTrivial { reqDefault with order := some ("asc") } memTwo).items =
      [recLyon, recParis] ∧
    recLyon.createdAt = ("2024-06-02T00:00:00.000Z") ∧
    recParis.createdAt = ("2024-06-01T00:00:00.000Z") ∧
    sortCompare cmpTrivial { reqDefault with order := some ("asc") } recLyon recParis =
      jsInt 0 := by
  decide

/-- Claim C2 (amended): the volatile sort orders the filtered records by the
comparator — locale collation of `location` for `sortBy=location`, numeric
difference of the field values for `sortBy=price`/`rentalYield` (negated for
`desc`), provided the compared values are numeric (non-`NaN`) — so for
`sortBy=price&order=asc` consecutive items are in nondecreasing price order;
but for `sortBy=createdAt` (including the default) the stored `createdAt` is
an ISO string whose subtraction is `NaN`, the comparator is `0` on every
pair, and the filtered order is kept unchanged instead of being sorted by
creation time. -/
theorem C2_sort_semantics (locCmp : String → String → Int) (req : QueryReq) (mem : List Record)
    (htot : ∀ x y, locCmp x y ≤ 0 ∨ locCmp y x ≤ 0)
    (htrans : ∀ x y z, locCmp x y ≤ 0 → locCmp y z ≤ 0 → locCmp x z ≤ 0)
    (hflip : ∀ x y, 0 ≤ locCmp x y ↔ locCmp y x ≤ 0) :
    ((sortKey req = ("price") ∨ sortKey req = ("rentalYield")) → ascOrder req = true →
      (∀ r ∈ filteredList req mem, fieldNum r (sortKey req) ≠ .nan) →
      (volatileQuery locCmp req mem).items.Pairwise
        (fun a b => (scoreNum (sortKey req) a).le (scoreNum (sortKey req) b))) ∧
    ((sortKey req = ("price") ∨ sortKey req = ("rentalYield")) → ascOrder req = false →
      (∀ r ∈ filteredList req mem, fieldNum r (sortKey req) ≠ .nan) →
      (volatileQuery locCmp req mem).items.Pairwise
        (fun a b => (scoreNum (sortKey req) b).le (scoreNum (sortKey req) a))) ∧
    (sortKey req = ("location") → ascOrder req = true →
      (∀ r ∈ filteredList req mem, ∃ s, r.location = .str s) →
      (volatileQuery locCmp req mem).items.Pairwise
        (fun a b => locCmp (jsvalToString a.location) (jsvalToString b.location) ≤ 0)) ∧
    (sortKey req = ("location") → ascOrder req = false →
      (∀ r ∈ filteredList req mem, ∃ s, r.location = .str s) →
      (volatileQuery locCmp req mem).items.Pairwise
        (fun a b => 0 ≤ locCmp (jsvalToString a.location) (jsvalToString b.location))) ∧
    (sortKey req = ("createdAt") →
      (∀ r ∈ filteredList req mem, fieldNum r ("createdAt") = .nan) →
      sortStep locCmp req (filteredList req mem) = filteredList req mem) := by
  refine ⟨?_, ?_, ?_, ?_, ?_⟩
  · intro hkey hasc hnum
    have hk : sortKey req ≠ ("location") := by
      rcases hkey with h | h <;> simp [h]
    refine List.Pairwise.sublist (items_sublist_sortStep locCmp req mem) ?_
    apply sortStep_pairwise
    intro x hx y hy
    exact sortCompare_le_iff_asc locCmp req hk hasc x y (hnum x hx) (hnum y hy)
  · intro hkey hdesc hnum
    have hk : sortKey req ≠ ("location") := by
      rcases hkey with h | h <;> simp [h]
    refine List.Pairwise.sublist (items_sublist_sortStep locCmp req mem) ?_
    refine sortStep_pairwise_rel locCmp req (filteredList req mem)
      (fun a b => (scoreNum (sortKey req) b).le (scoreNum (sortKey req) a)) ?_ ?_ ?_
    · intro a b
      exact (JSRat.le_total _ _).symm
    · intro a b c hab hbc
      exact JSRat.le_trans hbc hab
    · intro x hx y hy
      exact sortCompare_le_iff_desc locCmp req hk hdesc x y (hnum x hx) (hnum y hy)
  · intro hkey hasc _
    refine List.Pairwise.sublist (items_sublist_sortStep locCmp req mem) ?_
    refine sortStep_pairwise_rel locCmp req (filteredList req mem)
      (fun a b => locCmp (jsvalToString a.location) (jsvalToString b.location) ≤ 0) ?_ ?_ ?_
    · intro a b
      exact htot _ _
    · intro a b c hab hbc
      exact htrans _ _ _ hab hbc
    · intro x _ y _
      exact sortCompare_loc_asc locCmp req hkey hasc x y
  · intro hkey hdesc _
    refine List.Pairwise.sublist (items_sublist_sortStep locCmp req mem) ?_
    refine sortStep_pairwise_rel locCmp req (filteredList req mem)
      (fun a b => 0 ≤ locCmp (jsvalToString a.location) (jsvalToString b.location)) ?_ ?_ ?_
    · intro a b
      rcases htot (jsvalToString a.location) (jsvalToString b.location) with h | h
      · exact Or.inr ((hflip _ _).mpr h)
      · exact Or.inl ((hflip _ _).mpr h)
    · intro a b c hab hbc
      have h1 : locCmp (jsvalToString b.location) (jsvalToString a.location) ≤ 0 :=
        (hflip _ _).mp hab
      have h2 : locCmp (jsvalToString c.location) (jsvalToString b.location) ≤ 0 :=
        (hflip _ _).mp hbc
      exact (hflip _ _).mpr (htrans _ _ _ h2 h1)
    · intro x _ y _
      exact sortCompare_loc_desc locCmp req hkey hdesc x y
  · intro hkey hnan
    apply sortStep_id_of_le
    intro x hx y hy
    have hsub : jsSub (fieldNum x (sortKey req)) (fieldNum y (sortKey req)) = .nan := by
      rw [hkey, hnan x hx, hnan y hy]
      rfl
    have hk : sortKey req ≠ ("location") := by simp [hkey]
    rw [sortCompare_zero_of_nan locCmp req hk x y hsub]
    exact jsInt_zero_le_zero

/-- Claim C2 witness: `sortBy=price&order=asc` over the two-record store
yields items in nondecreasing price order. -/
theorem C2_sort_semantics_witness :
    (volatileQuery cmpTrivial { reqDefault with sortBy := some ("price"), order := some ("asc") }
        memTwo).items.Pairwise
      (fun a b => (scoreNum ("price") a).le (scoreNum ("price") b)) :=
  (C2_sort_semantics cmpTrivial
      { reqDefault with sortBy := some ("price"), order := some ("asc") } memTwo
      (fun _ _ => Or.inl (le_refl 0))
      (fun _ _ _ _ _ => le_refl 0)
      (fun _ _ => Iff.rfl)).1
    (Or.inl rfl) rfl (by decide)
